import Mathlib

set_option autoImplicit false

/-!
Verification of the generic DynamoDB repository layer
(`repository/base_repository.py`) and the key-metadata extractor
(`models/extract_keys_metadata.py`).

The Python code is shallowly embedded: a stored item is an association
list from Python attribute name to string value, a table is a list of
items, and every fallible operation returns `Except PyError`.  The
query/scan operations of the repository return the storage request they
delegate to (`StorageCall`); the external storage engine that executes
such a request is modelled separately by `execCall`.
-/

/-- Python exceptions that the repository code raises or catches.
`doesNotExist` is pynamodb's `DoesNotExist` (the spec's
`ItemNotFoundError` when propagated from `update`); `valueError` carries
the message (the spec's `InvalidQueryError` and `MissingHashKeyError`
are both `ValueError`s in the source, told apart by message). -/
inductive PyError where
  | doesNotExist
  | attributeError
  | valueError (msg : String)
deriving DecidableEq, Repr

/-- Attribute values are modelled as strings (the models in the
repository declare only `UnicodeAttribute`s). -/
abbrev Value := String

/-- A stored item / the `attribute_values` dict of a model instance:
an association list from Python attribute name to value. -/
abbrev Item := List (String × Value)

/-- A table's contents. -/
abbrev Store := List Item

/-- First-match association-list lookup (Python `dict.get` /
`getattr` on a set attribute). -/
def lookupI : Item → String → Option Value
  | [], _ => none
  | (k, v) :: rest, n => if k = n then some v else lookupI rest n

/-- Python `setattr` on a model instance: replace the binding in place
if the name is present, append it otherwise (dict update order). -/
def setattrI : Item → String → Value → Item
  | [], n, v => [(n, v)]
  | (k, w) :: rest, n, v =>
    if k = n then (n, v) :: rest else (k, w) :: setattrI rest n v

/-- Python truthiness of an `Optional[str]`: `None` and `""` are falsy. -/
def pyTruthy : Option String → Bool
  | none => false
  | some s => !(s == "")

/-- One declared pynamodb attribute: Python attribute name, storage
attribute name (`attr_name`), and the hash/range key flags. -/
structure AttrDef where
  pyName : String
  attr_name : String
  is_hash_key : Bool
  is_range_key : Bool
deriving DecidableEq, Repr

/-- A declared secondary index: its name and its attribute set
(`index.attributes`, in declaration order). -/
structure IndexDef where
  name : String
  attributes : List AttrDef
deriving DecidableEq, Repr

/-- A pynamodb model class: declared attributes in declaration order,
global secondary indexes (`_indexes`) and local ones (`_local_indexes`). -/
structure PModel where
  attributes : List AttrDef
  indexes : List IndexDef
  local_indexes : List IndexDef
deriving DecidableEq, Repr

/-- Python attribute name of the model's hash-key attribute
(the attribute pynamodb keys the table by). -/
def PModel.hashName (m : PModel) : Option String :=
  (m.attributes.find? (fun a => a.is_hash_key)).map (fun a => a.pyName)

/-- Python attribute name of the model's range-key attribute, if any. -/
def PModel.rangeName (m : PModel) : Option String :=
  (m.attributes.find? (fun a => a.is_range_key)).map (fun a => a.pyName)

/-- Whether a stored item sits at key `(h, r)` of model `m`. -/
def itemKeyMatches (m : PModel) (h : Value) (r : Option Value) (it : Item) : Bool :=
  match m.hashName with
  | none => false
  | some hn =>
    lookupI it hn == some h &&
      (match m.rangeName with
       | none => true
       | some rn => lookupI it rn == r)

/-- Whether two items share the same primary key under model `m`. -/
def sameKey (m : PModel) (a b : Item) : Bool :=
  match m.hashName with
  | none => false
  | some hn =>
    lookupI a hn == lookupI b hn &&
      (match m.rangeName with
       | none => true
       | some rn => lookupI a rn == lookupI b rn)

/-- Modelled from the spec: the storage engine's unconditional
`put_item` capability (§6) — overwrite any item at the same key. -/
def putItem (m : PModel) (s : Store) (it : Item) : Store :=
  it :: s.filter (fun old => !sameKey m it old)

/-- Modelled from the spec: the storage engine's `get_item` capability
(§6).  Requires the key arity to match the model's declaration and
reports `DoesNotExist` when no item sits at the key.  `consistent_read`
cannot affect the result in this single-copy sequential model. -/
def storageGet (m : PModel) (s : Store) (h : Value) (r : Option Value)
    (consistent_read : Bool) : Except PyError Item :=
  if m.rangeName.isSome != r.isSome then
    .error (.valueError "key arity does not match the model")
  else
    match s.find? (itemKeyMatches m h r) with
    | some it => .ok it
    | none => .error .doesNotExist

/-- `model_cls.get(hash_key, ...)` where `hash_key` may be Python
`None` (serializing a `None` hash key raises, it is not `DoesNotExist`). -/
def modelGet (m : PModel) (s : Store) (hk : Option Value) (rk : Option Value)
    (consistent_read : Bool) : Except PyError Item :=
  match hk with
  | none => .error (.valueError "hash key is None")
  | some h => storageGet m s h rk consistent_read

/-- `instance.save()`: serializing requires the declared key attributes
to be set; then it is an unconditional `put_item`. -/
def save (m : PModel) (s : Store) (inst : Item) : Except PyError Store :=
  match m.hashName with
  | none => .error (.valueError "model has no hash key")
  | some hn =>
    match lookupI inst hn with
    | none => .error (.valueError "hash key attribute not set")
    | some _ =>
      match m.rangeName with
      | none => .ok (putItem m s inst)
      | some rn =>
        match lookupI inst rn with
        | none => .error (.valueError "range key attribute not set")
        | some _ => .ok (putItem m s inst)

/-- Python `getattr(instance, name)`: a declared attribute yields its
value (or `None` when unset), an undeclared name raises
`AttributeError`. -/
def getattrE (m : PModel) (inst : Item) (name : String) :
    Except PyError (Option Value) :=
  if m.attributes.any (fun a => a.pyName == name) then .ok (lookupI inst name)
  else .error .attributeError

/-- The key-resolution prelude shared verbatim by `update` and `upsert`:
`hash_key = getattr(model_instance, hash_key_name)` and
`range_key = getattr(model_instance, range_key_name) if range_key_name
else None` (note the truthiness test on the *name*). -/
def resolveKeys (m : PModel) (inst : Item) (hash_key_name : String)
    (range_key_name : Option String) :
    Except PyError (Option Value × Option Value) :=
  match getattrE m inst hash_key_name with
  | .error e => .error e
  | .ok hk =>
    match range_key_name with
    | some rn =>
      if rn = "" then .ok (hk, none)
      else
        match getattrE m inst rn with
        | .error e => .error e
        | .ok rk => .ok (hk, rk)
    | none => .ok (hk, none)

namespace DynamoRepository

/-- `DynamoRepository.get`: short-circuit on a falsy hash key, catch
`DoesNotExist` into `none`; note `model.get(h, r) if range_key else
model.get(h)` tests the *truthiness* of the range key. -/
def get (m : PModel) (s : Store) (hash_key : Option Value)
    (range_key : Option Value) : Except PyError (Option Item) :=
  match hash_key with
  | none => .ok none
  | some hs =>
    if hs = "" then .ok none
    else
      match (if pyTruthy range_key then storageGet m s hs range_key false
             else storageGet m s hs none false) with
      | .ok it => .ok (some it)
      | .error .doesNotExist => .ok none
      | .error e => .error e

/-- `DynamoRepository.insert`: `model_instance.save()`, then return the
same instance. -/
def insert (m : PModel) (s : Store) (model_instance : Item) :
    Except PyError (Store × Item) :=
  (save m s model_instance).map (fun s' => (s', model_instance))

/-- One iteration of `update`'s merge loop: look the attribute up in
`model_cls._get_attributes()` and overwrite it on the fetched item only
when it is declared and not a key attribute. -/
def mergeStep (m : PModel) (ex : Item) (p : String × Value) : Item :=
  match m.attributes.find? (fun a => a.pyName == p.1) with
  | some ad =>
    if !ad.is_hash_key && !ad.is_range_key then setattrI ex p.1 p.2 else ex
  | none => ex

/-- `update`'s merge loop over `model_instance.attribute_values.items()`. -/
def mergeAttrs (m : PModel) (existing model_instance : Item) : Item :=
  model_instance.foldl (mergeStep m) existing

/-- `DynamoRepository.update`: read the key values off the instance,
fetch the currently stored item (raising `DoesNotExist` — the spec's
`ItemNotFoundError` — when absent, in which case nothing is written),
merge every declared non-key attribute of the instance onto it, and
save the merged item. -/
def update (m : PModel) (s : Store) (model_instance : Item)
    (hash_key_name : String) (range_key_name : Option String)
    (consistent_read : Bool) : Except PyError (Store × Item) :=
  match resolveKeys m model_instance hash_key_name range_key_name with
  | .error e => .error e
  | .ok keys =>
    match (if keys.2.isSome then modelGet m s keys.1 keys.2 consistent_read
           else modelGet m s keys.1 none consistent_read) with
    | .error e => .error e
    | .ok existing =>
      match save m s (mergeAttrs m existing model_instance) with
      | .error e => .error e
      | .ok s' => .ok (s', mergeAttrs m existing model_instance)

/-- `DynamoRepository.upsert`: probe the key; on `DoesNotExist`
(anywhere in the `try` block) insert, otherwise delegate to `update` —
note the source does not forward `consistent_read` to `update`. -/
def upsert (m : PModel) (s : Store) (model_instance : Item)
    (hash_key_name : String) (range_key_name : Option String)
    (consistent_read : Bool) : Except PyError (Store × Item) :=
  match resolveKeys m model_instance hash_key_name range_key_name with
  | .error e => .error e
  | .ok keys =>
    match ((match (if keys.2.isSome then modelGet m s keys.1 keys.2 consistent_read
                   else modelGet m s keys.1 none consistent_read) with
            | .error e => .error e
            | .ok _ =>
              update m s model_instance hash_key_name range_key_name false) :
           Except PyError (Store × Item)) with
    | .error .doesNotExist => insert m s model_instance
    | r => r

end DynamoRepository

/-- The caller-constructed condition trees (`pynamodb` `Condition`). -/
inductive Condition where
  | eqCond (path : String) (val : Value)
  | beginsWith (path : String) (val : Value)
  | andCond (a b : Condition)
  | orCond (a b : Condition)
deriving DecidableEq, Repr

/-- Evaluation of a condition against an item (the storage engine's
filter semantics, modelled from the spec's operator list in §3). -/
def Condition.eval : Condition → Item → Bool
  | .eqCond p v, it => lookupI it p == some v
  | .beginsWith p v, it =>
    match lookupI it p with
    | some s => v.isPrefixOf s
    | none => false
  | .andCond a b, it => a.eval it && b.eval it
  | .orCond a b, it => a.eval it || b.eval it

/-- The request a repository query/scan operation hands to the storage
layer; the repository's observable behaviour is this request (or the
error it raises instead of making one). -/
inductive StorageCall where
  | queryCall (hash_key_value : Value) (index_name : Option String)
      (range_key_condition : Option Condition)
      (filter_condition : Option Condition)
      (limit : Option Nat) (scan_index_forward : Bool) (consistent_read : Bool)
  | scanCall (index_name : Option String)
      (filter_condition : Option Condition)
      (limit : Option Nat) (consistent_read : Bool)
deriving DecidableEq, Repr

/-- `range_key_condition & filter_condition if filter_condition else
range_key_condition` (a `Condition` object is always truthy in Python). -/
def combineFilter (rkc : Condition) (fc : Option Condition) : Condition :=
  match fc with
  | some f => .andCond rkc f
  | none => rkc

/-- The `ValueError` message shared by `query`, `query_index` and
`flexible_query`. -/
def invalidQueryMsg : String :=
  "hash_key_value é obrigatório, exceto se use_scan_if_missing_hash=True e range_key_condition for fornecido."

namespace DynamoRepository

/-- `DynamoRepository.query`: partition query when `hash_key_value is
not None`; otherwise scan with the combined filter when the fallback is
opted into and a range condition is given; otherwise raise `ValueError`
(the spec's `InvalidQueryError`) without constructing any storage
request. -/
def query (hash_key_value : Option Value)
    (range_key_condition filter_condition : Option Condition)
    (limit : Option Nat) (scan_forward : Bool)
    (use_scan_if_missing_hash : Bool) (consistent_read : Bool) :
    Except PyError StorageCall :=
  match hash_key_value with
  | some h =>
    .ok (.queryCall h none range_key_condition filter_condition limit
          scan_forward consistent_read)
  | none =>
    if use_scan_if_missing_hash then
      match range_key_condition with
      | some rkc =>
        .ok (.scanCall none (some (combineFilter rkc filter_condition))
              limit consistent_read)
      | none => .error (.valueError invalidQueryMsg)
    else .error (.valueError invalidQueryMsg)

/-- `DynamoRepository.query_index`: the same dispatch as `query`, with
the named index threaded into both the query and the scan request. -/
def query_index (index_name : String) (hash_key_value : Option Value)
    (range_key_condition filter_condition : Option Condition)
    (limit : Option Nat) (scan_forward : Bool)
    (use_scan_if_missing_hash : Bool) (consistent_read : Bool) :
    Except PyError StorageCall :=
  match hash_key_value with
  | some h =>
    .ok (.queryCall h (some index_name) range_key_condition filter_condition
          limit scan_forward consistent_read)
  | none =>
    if use_scan_if_missing_hash then
      match range_key_condition with
      | some rkc =>
        .ok (.scanCall (some index_name)
              (some (combineFilter rkc filter_condition)) limit consistent_read)
      | none => .error (.valueError invalidQueryMsg)
    else .error (.valueError invalidQueryMsg)

/-- `DynamoRepository.scan`: unconditional full scan request. -/
def scan (filter_condition : Option Condition) (limit : Option Nat)
    (consistent_read : Bool) : StorageCall :=
  .scanCall none filter_condition limit consistent_read

/-- `DynamoRepository.flexible_query`: unified dispatch; note
`if index_name:` tests the *truthiness* of the index name, so an empty
string behaves as if no index were given. -/
def flexible_query (hash_key_value : Option Value)
    (range_key_condition filter_condition : Option Condition)
    (limit : Option Nat) (scan_forward : Bool) (consistent_read : Bool)
    (use_scan_if_missing_hash : Bool) (index_name : Option String) :
    Except PyError StorageCall :=
  match hash_key_value with
  | some h =>
    if pyTruthy index_name then
      .ok (.queryCall h index_name range_key_condition filter_condition limit
            scan_forward consistent_read)
    else
      .ok (.queryCall h none range_key_condition filter_condition limit
            scan_forward consistent_read)
  | none =>
    if use_scan_if_missing_hash then
      match range_key_condition with
      | some rkc =>
        if pyTruthy index_name then
          .ok (.scanCall index_name
                (some (combineFilter rkc filter_condition)) limit consistent_read)
        else
          .ok (.scanCall none
                (some (combineFilter rkc filter_condition)) limit consistent_read)
      | none => .error (.valueError invalidQueryMsg)
    else .error (.valueError invalidQueryMsg)

end DynamoRepository

/-- Truncate to `limit` items when a limit is given. -/
def applyLimit (limit : Option Nat) (xs : List Item) : List Item :=
  match limit with
  | none => xs
  | some n => xs.take n

/-- Apply an optional filter condition. -/
def applyFilter (fc : Option Condition) (xs : List Item) : List Item :=
  match fc with
  | none => xs
  | some c => xs.filter c.eval

/-- The items of the partition at hash value `h`. -/
def partitionOf (m : PModel) (s : Store) (h : Value) : List Item :=
  s.filter (fun it =>
    match m.hashName with
    | some hn => lookupI it hn == some h
    | none => false)

/-- Sort-key comparison between items of one partition. -/
def rangeLE (m : PModel) (a b : Item) : Bool :=
  match m.rangeName with
  | none => true
  | some rn =>
    match lookupI a rn, lookupI b rn with
    | some x, some y => !(decide (y < x))
    | _, _ => true

/-- Insertion into a list sorted by `le`. -/
def insertSorted (le : Item → Item → Bool) (a : Item) : List Item → List Item
  | [] => [a]
  | b :: rest => if le a b then a :: b :: rest else b :: insertSorted le a rest

/-- Insertion sort by `le`. -/
def sortItems (le : Item → Item → Bool) : List Item → List Item
  | [] => []
  | a :: rest => insertSorted le a (sortItems le rest)

/-- Order a partition by the sort key, ascending or descending per
`scan_index_forward`. -/
def orderByRange (m : PModel) (forward : Bool) (xs : List Item) : List Item :=
  if forward then sortItems (rangeLE m) xs
  else (sortItems (rangeLE m) xs).reverse

/-- Modelled from the spec: execution of a storage request by the
external storage engine (§6 capability set; the storage engine itself
is an out-of-scope collaborator).  A partition query selects the
partition, applies the range-key condition, orders by sort key per
`scan_index_forward`, post-filters, and caps at `limit`; a scan filters
the whole table and caps at `limit`. -/
def execCall (m : PModel) (s : Store) : StorageCall → List Item
  | .queryCall h _ rkc fc limit sf _ =>
    applyLimit limit (applyFilter fc (orderByRange m sf (applyFilter rkc (partitionOf m s h))))
  | .scanCall _ fc limit _ => applyLimit limit (applyFilter fc s)

/-- A repository `query` together with the storage engine executing the
request it produced. -/
def queryRun (m : PModel) (s : Store) (hash_key_value : Option Value)
    (range_key_condition filter_condition : Option Condition)
    (limit : Option Nat) (scan_forward : Bool)
    (use_scan_if_missing_hash : Bool) (consistent_read : Bool) :
    Except PyError (List Item) :=
  (DynamoRepository.query hash_key_value range_key_condition filter_condition
    limit scan_forward use_scan_if_missing_hash consistent_read).map
    (execCall m s)

/-- A repository `scan` executed by the storage engine. -/
def scanRun (m : PModel) (s : Store) (filter_condition : Option Condition)
    (limit : Option Nat) (consistent_read : Bool) : List Item :=
  execCall m s (DynamoRepository.scan filter_condition limit consistent_read)

/-- Metadata for one secondary index, as returned by the extractor. -/
structure IndexKeyMetadata where
  name : String
  hash_key : Option String
  range_key : Option String
deriving DecidableEq, Repr

/-- Metadata for a model: table keys plus GSI and LSI descriptors. -/
structure ModelKeyMetadata where
  hash_key : String
  range_key : Option String
  gsis : List IndexKeyMetadata
  lsis : List IndexKeyMetadata
deriving DecidableEq, Repr

/-- Python `a or b` on strings (`""` is falsy). -/
def pyOrStr (a b : String) : String := if a = "" then b else a

/-- The extractor's inner `get_key`: `attr.attr_name if return_attr_name
else attr.attr_name or attr.attr_name` — both branches read `attr_name`. -/
def get_key (return_attr_name : Bool) (attr : AttrDef) : String :=
  if return_attr_name then attr.attr_name
  else pyOrStr attr.attr_name attr.attr_name

/-- One step of the extractor's key-scanning loop
(`if attr.is_hash_key: ... elif attr.is_range_key: ...`). -/
def scanKeyStep (return_attr_name : Bool)
    (acc : Option String × Option String) (attr : AttrDef) :
    Option String × Option String :=
  if attr.is_hash_key then (some (get_key return_attr_name attr), acc.2)
  else if attr.is_range_key then (acc.1, some (get_key return_attr_name attr))
  else acc

/-- The extractor's key-scanning loop: walk the attributes in order,
recording the (last) hash-marked and the (last) range-marked attribute's
extracted name. -/
def scanKeyNames (return_attr_name : Bool) (attrs : List AttrDef) :
    Option String × Option String :=
  attrs.foldl (scanKeyStep return_attr_name) (none, none)

/-- The per-index loop of the extractor: scan the index's attribute set
the same way and package the (possibly absent) names. -/
def extractIndexMeta (return_attr_name : Bool) (idx : IndexDef) :
    IndexKeyMetadata :=
  { name := idx.name
    hash_key := (scanKeyNames return_attr_name idx.attributes).1
    range_key := (scanKeyNames return_attr_name idx.attributes).2 }

/-- The `ValueError` message raised by the extractor. -/
def missingHashMsg : String := "Hash key não encontrada no modelo."

/-- `extract_keys_metadata`: scan the model's attributes for the table
keys, raise `ValueError` (the spec's `MissingHashKeyError`) when the
extracted hash-key name is Python-falsy (`if not hash_key:`), then map
the per-index loop over `_indexes` and `_local_indexes`. -/
def extract_keys_metadata (model_cls : PModel) (return_attr_name : Bool) :
    Except PyError ModelKeyMetadata :=
  match scanKeyNames return_attr_name model_cls.attributes with
  | (none, _) => .error (.valueError missingHashMsg)
  | (some hk, rk) =>
    if hk = "" then .error (.valueError missingHashMsg)
    else
      .ok { hash_key := hk
            range_key := rk
            gsis := model_cls.indexes.map (extractIndexMeta return_attr_name)
            lsis := model_cls.local_indexes.map (extractIndexMeta return_attr_name) }

/-- The `CustomerModel` fixture from `models/customer_model.py`. -/
def emailIndex : IndexDef :=
  { name := "email-index"
    attributes := [{ pyName := "email", attr_name := "email",
                     is_hash_key := true, is_range_key := false }] }

/-- The `status-index` GSI of `CustomerModel`. -/
def statusIndex : IndexDef :=
  { name := "status-index"
    attributes := [{ pyName := "status", attr_name := "status",
                     is_hash_key := true, is_range_key := false },
                   { pyName := "created_at", attr_name := "created_at",
                     is_hash_key := false, is_range_key := true }] }

/-- `CustomerModel`: hash key `customer_id`, range key `tenant_id`,
plain attributes `name`, `email`, `status`, `created_at`, two GSIs. -/
def CustomerModel : PModel :=
  { attributes :=
      [{ pyName := "customer_id", attr_name := "customer_id",
         is_hash_key := true, is_range_key := false },
       { pyName := "tenant_id", attr_name := "tenant_id",
         is_hash_key := false, is_range_key := true },
       { pyName := "name", attr_name := "name",
         is_hash_key := false, is_range_key := false },
       { pyName := "email", attr_name := "email",
         is_hash_key := false, is_range_key := false },
       { pyName := "status", attr_name := "status",
         is_hash_key := false, is_range_key := false },
       { pyName := "created_at", attr_name := "created_at",
         is_hash_key := false, is_range_key := false }]
    indexes := [emailIndex, statusIndex]
    local_indexes := [] }

/-- A concrete customer instance used by the witnesses. -/
def aliceItem : Item :=
  [("customer_id", "C0001"), ("tenant_id", "T1"), ("name", "User 1"),
   ("email", "u1@example.com"), ("status", "active"), ("created_at", "2020")]

/-- The same customer with a changed name, used to exercise `update`. -/
def aliceRenamed : Item :=
  [("customer_id", "C0001"), ("tenant_id", "T1"), ("name", "Updated Name"),
   ("email", "u1@example.com"), ("status", "active"), ("created_at", "2020")]

/-- A model that declares no hash-key attribute. -/
def noHashModel : PModel :=
  { attributes := [{ pyName := "tenant_id", attr_name := "tenant_id",
                     is_hash_key := false, is_range_key := true }]
    indexes := []
    local_indexes := [] }

/-- A model that does declare a hash-key attribute, but with an empty
storage-level `attr_name`. -/
def emptyNameHashModel : PModel :=
  { attributes := [{ pyName := "id", attr_name := "",
                     is_hash_key := true, is_range_key := false }]
    indexes := []
    local_indexes := [] }

/-- An index declaring no hash-key attribute (only a range key). -/
def hashlessIndex : IndexDef :=
  { name := "broken-index"
    attributes := [{ pyName := "created_at", attr_name := "created_at",
                     is_hash_key := false, is_range_key := true }] }

/-- `get_key` reads the storage-level `attr_name` in both branches. -/
theorem get_key_eq_attr_name (ra : Bool) (a : AttrDef) :
    get_key ra a = a.attr_name := by
  cases ra <;> simp [get_key, pyOrStr]

/-- The extractor's flag does not change the key-scanning loop. -/
theorem scanKeyNames_flag_irrelevant (ra : Bool) (attrs : List AttrDef) :
    scanKeyNames ra attrs = scanKeyNames true attrs := by
  unfold scanKeyNames scanKeyStep
  simp only [get_key_eq_attr_name]

/-- The extractor's flag does not change the per-index metadata. -/
theorem extractIndexMeta_flag_irrelevant (ra : Bool) :
    extractIndexMeta ra = extractIndexMeta true := by
  funext idx
  unfold extractIndexMeta
  rw [scanKeyNames_flag_irrelevant]

/-- If no attribute of the list is hash-marked, the scanning loop keeps
the accumulator's hash component. -/
theorem scanKeyNames_fst_of_no_hash (ra : Bool) :
    ∀ (attrs : List AttrDef) (acc : Option String × Option String),
      (attrs.all (fun a => !a.is_hash_key)) = true →
      (attrs.foldl (scanKeyStep ra) acc).1 = acc.1 := by
  intro attrs
  induction attrs with
  | nil => intro acc _; rfl
  | cons a rest ih =>
    intro acc hall
    simp only [List.all_cons, Bool.and_eq_true, Bool.not_eq_true'] at hall
    obtain ⟨ha, hrest⟩ := hall
    have hstep : (scanKeyStep ra acc a).1 = acc.1 := by
      unfold scanKeyStep
      rw [ha]
      by_cases hr : a.is_range_key = true
      · simp [hr]
      · simp [hr]
    calc ((a :: rest).foldl (scanKeyStep ra) acc).1
        = (rest.foldl (scanKeyStep ra) (scanKeyStep ra acc a)).1 := rfl
      _ = (scanKeyStep ra acc a).1 := by
            apply ih
            simp only [List.all_eq_true] at hrest ⊢
            intro x hx
            exact hrest x hx
      _ = acc.1 := hstep

/-- Claim C10: `extract_keys_metadata` returns identical output for
`return_attr_name = true` and `false` — the flag has no observable
effect — and every key name it extracts is the storage-level
`attr_name`, never the declared Python attribute name. -/
theorem c10_return_attr_name_irrelevant :
    (∀ (ra : Bool) (a : AttrDef), get_key ra a = a.attr_name) ∧
    (∀ (m : PModel) (ra ra' : Bool),
       extract_keys_metadata m ra = extract_keys_metadata m ra') := by
  refine ⟨get_key_eq_attr_name, ?_⟩
  intro m ra ra'
  unfold extract_keys_metadata
  rw [scanKeyNames_flag_irrelevant ra, scanKeyNames_flag_irrelevant ra',
    extractIndexMeta_flag_irrelevant ra, extractIndexMeta_flag_irrelevant ra']

/-- Claim C8 (counterexample): a model that *does* declare a hash-key
attribute, with an empty storage name, still makes the extractor raise
its missing-hash-key error — refuting "fails if and only if the entity
declares no hash-key attribute". -/
theorem c8_counterexample :
    (emptyNameHashModel.attributes.any (fun a => a.is_hash_key)) = true ∧
    extract_keys_metadata emptyNameHashModel false =
      .error (.valueError missingHashMsg) :=
  ⟨rfl, rfl⟩

/-- Claim C8 (amended): extraction fails — always with the
missing-hash-key `ValueError` — exactly when the hash-key name the scan
computes is Python-falsy (absent because no attribute is hash-marked,
or the empty string); in particular it always fails when no attribute
is hash-marked; it is the only validation performed: an index whose
attribute set has no hash-marked attribute silently yields a descriptor
with `hash_key` absent, and on success the index descriptors are exactly
the per-index loop mapped over the declared indexes. -/
theorem c8_missing_hash_key_validation (m : PModel) (ra : Bool) :
    ((m.attributes.all (fun a => !a.is_hash_key)) = true →
       extract_keys_metadata m ra = .error (.valueError missingHashMsg)) ∧
    (extract_keys_metadata m ra = .error (.valueError missingHashMsg) ↔
       ((scanKeyNames ra m.attributes).1 = none ∨
        (scanKeyNames ra m.attributes).1 = some "")) ∧
    (∀ idx, (idx.attributes.all (fun a => !a.is_hash_key)) = true →
       (extractIndexMeta ra idx).hash_key = none) ∧
    (∀ meta, extract_keys_metadata m ra = .ok meta →
       meta.gsis = m.indexes.map (extractIndexMeta ra) ∧
       meta.lsis = m.local_indexes.map (extractIndexMeta ra)) := by
  refine ⟨?_, ?_, ?_, ?_⟩
  · intro hall
    have h1 : (scanKeyNames ra m.attributes).1 = none :=
      scanKeyNames_fst_of_no_hash ra m.attributes (none, none) hall
    unfold extract_keys_metadata
    rcases hsc : scanKeyNames ra m.attributes with ⟨o1, o2⟩
    rw [hsc] at h1
    simp only at h1
    subst h1
    rfl
  · unfold extract_keys_metadata
    rcases hsc : scanKeyNames ra m.attributes with ⟨o1, o2⟩
    cases o1 with
    | none => simp
    | some hk =>
      by_cases hk0 : hk = ""
      · subst hk0
        simp
      · simp [hk0]
  · intro idx hall
    have h1 : (scanKeyNames ra idx.attributes).1 = none :=
      scanKeyNames_fst_of_no_hash ra idx.attributes (none, none) hall
    unfold extractIndexMeta
    exact h1
  · intro meta hok
    unfold extract_keys_metadata at hok
    rcases hsc : scanKeyNames ra m.attributes with ⟨o1, o2⟩
    rw [hsc] at hok
    cases o1 with
    | none => simp at hok
    | some hk =>
      by_cases hk0 : hk = ""
      · subst hk0
        simp at hok
      · simp [hk0] at hok
        rw [← hok]
        exact ⟨rfl, rfl⟩

/-- Witness for C8 (amended): the hypotheses of each implication hold
at a concrete model / index. -/
theorem c8_missing_hash_key_validation_witness :
    extract_keys_metadata noHashModel false =
      .error (.valueError missingHashMsg) ∧
    (extractIndexMeta false hashlessIndex).hash_key = none ∧
    (⟨"customer_id", some "tenant_id",
      [⟨"email-index", some "email", none⟩,
       ⟨"status-index", some "status", some "created_at"⟩], []⟩ :
        ModelKeyMetadata).gsis =
      CustomerModel.indexes.map (extractIndexMeta false) :=
  ⟨(c8_missing_hash_key_validation noHashModel false).1 rfl,
   (c8_missing_hash_key_validation noHashModel false).2.2.1 hashlessIndex rfl,
   ((c8_missing_hash_key_validation CustomerModel false).2.2.2
     ⟨"customer_id", some "tenant_id",
      [⟨"email-index", some "email", none⟩,
       ⟨"status-index", some "status", some "created_at"⟩], []⟩ rfl).1⟩

/-- Claim C1: `query` dispatches in the fixed order of the source —
with a hash key value it produces (and the store executes) a partition
query constrained by the range-key condition, ordered per
`scan_forward`, post-filtered and capped at `limit`; without one but
with the scan fallback opted into and a range condition present it
executes a full scan with the combined filter; otherwise it returns the
`ValueError` (the spec's `InvalidQueryError`) without constructing any
storage request, for every store alike. -/
theorem c1_query_dispatch (m : PModel) (s : Store) (hkv : Option Value)
    (rkc fc : Option Condition) (limit : Option Nat) (sf uhs cr : Bool) :
    (∀ h, hkv = some h →
       queryRun m s hkv rkc fc limit sf uhs cr =
         .ok (applyLimit limit (applyFilter fc (orderByRange m sf
               (applyFilter rkc (partitionOf m s h)))))) ∧
    (∀ c, hkv = none → uhs = true → rkc = some c →
       queryRun m s hkv rkc fc limit sf uhs cr =
         .ok (applyLimit limit
               (applyFilter (some (combineFilter c fc)) s))) ∧
    (hkv = none → uhs = false ∨ rkc = none →
       DynamoRepository.query hkv rkc fc limit sf uhs cr =
         .error (.valueError invalidQueryMsg)) := by
  refine ⟨?_, ?_, ?_⟩
  · rintro h rfl
    rfl
  · rintro c rfl rfl rfl
    rfl
  · rintro rfl hcase
    rcases hcase with rfl | rfl
    · rfl
    · cases uhs <;> rfl

/-- Witness for C1: each branch of the dispatch at concrete arguments. -/
theorem c1_query_dispatch_witness :
    queryRun CustomerModel [aliceItem] (some "C0001") none none none
        true false false =
      .ok (applyLimit none (applyFilter none (orderByRange CustomerModel true
            (applyFilter none (partitionOf CustomerModel [aliceItem] "C0001"))))) ∧
    queryRun CustomerModel [aliceItem] none
        (some (.beginsWith "tenant_id" "T")) none none true true false =
      .ok (applyLimit none
            (applyFilter
              (some (combineFilter (.beginsWith "tenant_id" "T") none))
              [aliceItem])) ∧
    DynamoRepository.query none none none none true false false =
      .error (.valueError invalidQueryMsg) :=
  ⟨(c1_query_dispatch CustomerModel [aliceItem] (some "C0001") none none none
      true false false).1 "C0001" rfl,
   (c1_query_dispatch CustomerModel [aliceItem] none
      (some (.beginsWith "tenant_id" "T")) none none true true false).2.1
      (.beginsWith "tenant_id" "T") rfl rfl rfl,
   (c1_query_dispatch CustomerModel [aliceItem] none none none none
      true false false).2.2 rfl (Or.inl rfl)⟩

/-- Claim C5: with no hash key, the fallback enabled and a range
condition given, `query` returns exactly the items `scan` returns for
the filter that is the logical AND of the range condition and the
filter condition (the range condition alone when no filter is given),
with the same limit; on any store both equal the full table filtered by
the combined predicate and capped at the limit. -/
theorem c5_scan_fallback_equals_scan (m : PModel) (s : Store) (c : Condition)
    (fc : Option Condition) (limit : Option Nat) (sf cr : Bool) :
    queryRun m s none (some c) fc limit sf true cr =
      .ok (scanRun m s (some (combineFilter c fc)) limit cr) ∧
    scanRun m s (some (combineFilter c fc)) limit cr =
      applyLimit limit (s.filter (fun it =>
        c.eval it && (match fc with | some f => f.eval it | none => true))) := by
  constructor
  · rfl
  · cases fc with
    | none =>
      simp [scanRun, execCall, DynamoRepository.scan, applyFilter,
        combineFilter]
    | some f => rfl

/-- Claim C7: `get` returns absent immediately for a `None` or empty
hash key — on every store alike, the storage layer is never consulted —
and when the key lookup reports `DoesNotExist` it returns absent
instead of propagating an error. -/
theorem c7_get_guard_and_notfound (m : PModel) :
    (∀ (s : Store) (rk : Option Value),
       DynamoRepository.get m s none rk = .ok none) ∧
    (∀ (s : Store) (rk : Option Value),
       DynamoRepository.get m s (some "") rk = .ok none) ∧
    (∀ (s : Store) (h : Value) (rk : Option Value), h ≠ "" →
       (if pyTruthy rk then storageGet m s h rk false
        else storageGet m s h none false) = .error .doesNotExist →
       DynamoRepository.get m s (some h) rk = .ok none) := by
  refine ⟨fun s rk => rfl, fun s rk => rfl, fun s h rk hne hget => ?_⟩
  unfold DynamoRepository.get
  simp only [hne, if_false, hget]

/-- Witness for C7: a missing key on an empty store yields absent. -/
theorem c7_get_guard_witness :
    DynamoRepository.get CustomerModel [] (some "C0001") (some "T1") =
      .ok none :=
  (c7_get_guard_and_notfound CustomerModel).2.2 [] "C0001" (some "T1")
    (by decide) rfl

/-- Claim C9 (counterexample): with the empty string as index name,
`flexible_query` drops the index (Python `if index_name:` truthiness)
while `query_index` targets the index named `""` — the two make
different storage requests. -/
theorem c9_counterexample :
    DynamoRepository.flexible_query (some "C0001") none none none
        true false false (some "") ≠
      DynamoRepository.query_index "" (some "C0001") none none none
        true false false := by
  intro h
  simp only [DynamoRepository.flexible_query, DynamoRepository.query_index,
    pyTruthy] at h
  simp at h

/-- Claim C9 (amended): `flexible_query` with `index_name` absent — or
equal to the falsy empty string — behaves identically to `query`
(same dispatch, same results, same `InvalidQueryError`), and with a
nonempty `index_name` behaves identically to `query_index` with the
same arguments. -/
theorem c9_flexible_query_refines (hkv : Option Value)
    (rkc fc : Option Condition) (limit : Option Nat) (sf cr uhs : Bool) :
    (DynamoRepository.flexible_query hkv rkc fc limit sf cr uhs none =
       DynamoRepository.query hkv rkc fc limit sf uhs cr) ∧
    (DynamoRepository.flexible_query hkv rkc fc limit sf cr uhs (some "") =
       DynamoRepository.query hkv rkc fc limit sf uhs cr) ∧
    (∀ nm, nm ≠ "" →
       DynamoRepository.flexible_query hkv rkc fc limit sf cr uhs (some nm) =
         DynamoRepository.query_index nm hkv rkc fc limit sf uhs cr) := by
  refine ⟨?_, ?_, ?_⟩
  · cases hkv <;> cases uhs <;> cases rkc <;> rfl
  · cases hkv <;> cases uhs <;> cases rkc <;> rfl
  · intro nm hnm
    have htr : pyTruthy (some nm) = true := by
      simp [pyTruthy, hnm]
    cases hkv <;> cases uhs <;> cases rkc <;>
      simp [DynamoRepository.flexible_query, DynamoRepository.query_index,
        htr]

/-- Witness for C9 (amended): a nonempty index name at concrete
arguments. -/
theorem c9_flexible_query_refines_witness :
    DynamoRepository.flexible_query (some "active") none none none
        true false false (some "status-index") =
      DynamoRepository.query_index "status-index" (some "active") none none
        none true false false :=
  (c9_flexible_query_refines (some "active") none none none true false
    false).2.2 "status-index" (by decide)

/-- Looking up after a `setattr`: the set attribute reads back, the
rest is untouched. -/
theorem lookupI_setattrI (it : Item) (n : String) (v : Value) (x : String) :
    lookupI (setattrI it n v) x = if n = x then some v else lookupI it x := by
  induction it with
  | nil => simp [setattrI, lookupI]
  | cons p rest ih =>
    obtain ⟨k, w⟩ := p
    by_cases hk : k = n
    · subst hk
      simp only [setattrI, if_pos rfl, lookupI]
      by_cases hx : k = x
      · simp [hx]
      · simp [hx]
    · simp only [setattrI, if_neg hk, lookupI, ih]
      by_cases hx1 : k = x
      · subst hx1
        have hx2 : ¬n = k := fun hcontra => hk hcontra.symm
        simp [hx2]
      · simp [hx1]

/-- A name not bound in the item looks up to `none`. -/
theorem lookupI_eq_none_of_not_mem (it : Item) (n : String)
    (h : n ∉ it.map Prod.fst) : lookupI it n = none := by
  induction it with
  | nil => rfl
  | cons p rest ih =>
    obtain ⟨k, w⟩ := p
    simp only [List.map_cons, List.mem_cons] at h
    push_neg at h
    simp [lookupI, Ne.symm h.1, ih h.2]

/-- Under unique Python attribute names, looking an attribute's own name
up in the declaration list finds that attribute. -/
theorem find?_pyName_self (attrs : List AttrDef)
    (hnd : (attrs.map (fun a => a.pyName)).Nodup) (a : AttrDef)
    (ha : a ∈ attrs) :
    attrs.find? (fun x => x.pyName == a.pyName) = some a := by
  induction attrs with
  | nil => cases ha
  | cons b rest ih =>
    simp only [List.map_cons, List.nodup_cons] at hnd
    rcases List.mem_cons.mp ha with rfl | hmem
    · simp [List.find?]
    · have hne : (b.pyName == a.pyName) = false := by
        rw [beq_eq_false_iff_ne]
        intro hcontra
        exact hnd.1 (hcontra ▸ List.mem_map_of_mem (fun x => x.pyName) hmem)
      simp [List.find?, hne, ih hnd.2 hmem]

/-- A merge step never changes attributes other than the one merged. -/
theorem mergeStep_lookup_ne (m : PModel) (ex : Item) (p : String × Value)
    (n : String) (hne : n ≠ p.1) :
    lookupI (DynamoRepository.mergeStep m ex p) n = lookupI ex n := by
  unfold DynamoRepository.mergeStep
  cases m.attributes.find? (fun a => a.pyName == p.1) with
  | none => rfl
  | some ad =>
    by_cases hkey : (!ad.is_hash_key && !ad.is_range_key) = true
    · simp [hkey, lookupI_setattrI, Ne.symm hne]
    · simp [hkey]

/-- What the merge loop leaves at each attribute name: the instance's
value for declared non-key attributes present on the instance, the
fetched item's value everywhere else (instance names unique, as in a
Python dict). -/
theorem mergeAttrs_lookup (m : PModel) (inst : Item)
    (hnd : (inst.map Prod.fst).Nodup) (ex : Item) (n : String) :
    lookupI (DynamoRepository.mergeAttrs m ex inst) n =
      match lookupI inst n with
      | none => lookupI ex n
      | some v =>
        match m.attributes.find? (fun a => a.pyName == n) with
        | some ad =>
          if !ad.is_hash_key && !ad.is_range_key then some v else lookupI ex n
        | none => lookupI ex n := by
  induction inst generalizing ex with
  | nil => rfl
  | cons p rest ih =>
    obtain ⟨a, v⟩ := p
    simp only [List.map_cons, List.nodup_cons] at hnd
    have hstep : DynamoRepository.mergeAttrs m ex ((a, v) :: rest) =
        DynamoRepository.mergeAttrs m (DynamoRepository.mergeStep m ex (a, v)) rest := rfl
    rw [hstep, ih hnd.2]
    by_cases hn : n = a
    · subst hn
      have hrest : lookupI rest n = none :=
        lookupI_eq_none_of_not_mem rest n hnd.1
      rw [hrest]
      have hhead : lookupI ((n, v) :: rest) n = some v := by
        simp [lookupI]
      rw [hhead]
      unfold DynamoRepository.mergeStep
      cases m.attributes.find? (fun x => x.pyName == n) with
      | none => rfl
      | some ad =>
        by_cases hkey : (!ad.is_hash_key && !ad.is_range_key) = true
        · simp [hkey, lookupI_setattrI]
        · simp [hkey]
    · have hhead : lookupI ((a, v) :: rest) n = lookupI rest n := by
        have han : ¬a = n := fun hcontra => hn hcontra.symm
        simp [lookupI, han]
      rw [hhead, mergeStep_lookup_ne m ex (a, v) n hn]

/-- `consistent_read` cannot change a key lookup in the sequential
single-copy storage model. -/
theorem modelGet_cr_irrelevant (m : PModel) (s : Store) (hk rk : Option Value)
    (cr : Bool) : modelGet m s hk rk cr = modelGet m s hk rk false := rfl

/-- `consistent_read` cannot change the result of `update` in the
sequential storage model. -/
theorem update_cr_irrelevant (m : PModel) (s : Store) (inst : Item)
    (hkn : String) (rkn : Option String) (cr : Bool) :
    DynamoRepository.update m s inst hkn rkn cr =
      DynamoRepository.update m s inst hkn rkn false := rfl

/-- `getattr` fails only with `AttributeError`. -/
theorem getattrE_error_eq (m : PModel) (inst : Item) (name : String)
    (e : PyError) (h : getattrE m inst name = .error e) :
    e = .attributeError := by
  unfold getattrE at h
  by_cases hd : (m.attributes.any (fun a => a.pyName == name)) = true
  · rw [if_pos hd] at h
    cases h
  · rw [if_neg hd] at h
    cases h
    rfl

/-- Key resolution fails only with `AttributeError`, never with
`DoesNotExist`. -/
theorem resolveKeys_error_eq (m : PModel) (inst : Item) (hkn : String)
    (rkn : Option String) (e : PyError)
    (h : resolveKeys m inst hkn rkn = .error e) : e = .attributeError := by
  unfold resolveKeys at h
  split at h
  · rename_i e' hg
    injection h with h
    exact h ▸ getattrE_error_eq m inst hkn e' hg
  · split at h
    · split at h
      · cases h
      · split at h
        · rename_i e' hg2
          injection h with h
          exact h ▸ getattrE_error_eq m inst _ e' hg2
        · cases h
    · cases h

/-- `save` fails only with `ValueError`s, never with `DoesNotExist`. -/
theorem save_error_shape (m : PModel) (s : Store) (inst : Item) (e : PyError)
    (h : save m s inst = .error e) : ∃ msg, e = .valueError msg := by
  unfold save at h
  split at h
  · injection h with h
    exact ⟨_, h.symm⟩
  · split at h
    · injection h with h
      exact ⟨_, h.symm⟩
    · split at h
      · cases h
      · split at h
        · injection h with h
          exact ⟨_, h.symm⟩
        · cases h

/-- `insert` never fails with `DoesNotExist`. -/
theorem insert_ne_doesNotExist (m : PModel) (s : Store) (inst : Item) :
    DynamoRepository.insert m s inst ≠ .error .doesNotExist := by
  intro h
  unfold DynamoRepository.insert at h
  cases hs : save m s inst with
  | ok s' => rw [hs] at h; cases h
  | error e =>
    rw [hs] at h
    cases h
    obtain ⟨msg, hmsg⟩ := save_error_shape m s inst _ hs
    cases hmsg

/-- Claim C4: when the instance's key resolves but no stored item sits
at that key, `update` fails with `DoesNotExist` (the spec's
`ItemNotFoundError`); the error is returned before any write, so no new
store is produced and nothing is silently inserted. -/
theorem c4_update_missing_item (m : PModel) (s : Store) (inst : Item)
    (hkn : String) (rkn : Option String) (cr : Bool) (hk rk : Option Value)
    (hres : resolveKeys m inst hkn rkn = .ok (hk, rk))
    (hget : modelGet m s hk rk cr = .error .doesNotExist) :
    DynamoRepository.update m s inst hkn rkn cr = .error .doesNotExist := by
  unfold DynamoRepository.update
  rw [hres]
  cases rk with
  | none => simp [hget]
  | some r => simp [hget]

/-- Witness for C4: updating a customer against an empty table. -/
theorem c4_update_missing_item_witness :
    DynamoRepository.update CustomerModel [] aliceItem "customer_id"
      (some "tenant_id") false = .error .doesNotExist :=
  c4_update_missing_item CustomerModel [] aliceItem "customer_id"
    (some "tenant_id") false (some "C0001") (some "T1") rfl rfl

/-- Claim C6: `insert` persists the instance and returns the same
instance, and a subsequent `get` with the instance's hash key (and
range key when the model declares one) returns it, equal on every
attribute. -/
theorem c6_insert_get_roundtrip (m : PModel) (s : Store) (inst : Item)
    (hn : String) (h : Value) (rOpt : Option Value)
    (hhn : m.hashName = some hn)
    (hh : lookupI inst hn = some h) (hne : h ≠ "")
    (hr : (m.rangeName = none ∧ rOpt = none) ∨
          (∃ rn r, m.rangeName = some rn ∧ lookupI inst rn = some r ∧
            r ≠ "" ∧ rOpt = some r)) :
    DynamoRepository.insert m s inst = .ok (putItem m s inst, inst) ∧
    DynamoRepository.get m (putItem m s inst) (some h) rOpt =
      .ok (some inst) := by
  have hsave : save m s inst = .ok (putItem m s inst) := by
    unfold save
    rcases hr with ⟨hrn, _⟩ | ⟨rn, r, hrn, hlr, _, _⟩
    · simp [hhn, hh, hrn]
    · simp [hhn, hh, hrn, hlr]
  have hmatch : itemKeyMatches m h rOpt inst = true := by
    unfold itemKeyMatches
    rcases hr with ⟨hrn, hro⟩ | ⟨rn, r, hrn, hlr, _, hro⟩
    · subst hro
      simp [hhn, hrn, hh]
    · subst hro
      simp [hhn, hrn, hh, hlr]
  have hsg : storageGet m (putItem m s inst) h rOpt false = .ok inst := by
    unfold storageGet
    have harity : (m.rangeName.isSome != rOpt.isSome) = false := by
      rcases hr with ⟨hrn, hro⟩ | ⟨rn, r, hrn, _, _, hro⟩ <;>
        subst hro <;> rw [hrn] <;> rfl
    rw [harity]
    unfold putItem
    simp [List.find?, hmatch]
  have hbranch :
      (if pyTruthy rOpt then storageGet m (putItem m s inst) h rOpt false
       else storageGet m (putItem m s inst) h none false) = .ok inst := by
    rcases hr with ⟨hrn, hro⟩ | ⟨rn, r, hrn, hlr, hrne, hro⟩
    · subst hro
      simpa using hsg
    · subst hro
      have htr : pyTruthy (some r) = true := by simp [pyTruthy, hrne]
      rw [htr]
      · exact hsg
  constructor
  · unfold DynamoRepository.insert
    rw [hsave]
    rfl
  · unfold DynamoRepository.get
    simp [hne, hbranch]

/-- Witness for C6: inserting a concrete customer into the empty table
and reading it back. -/
theorem c6_insert_get_roundtrip_witness :
    DynamoRepository.insert CustomerModel [] aliceItem =
      .ok (putItem CustomerModel [] aliceItem, aliceItem) ∧
    DynamoRepository.get CustomerModel (putItem CustomerModel [] aliceItem)
        (some "C0001") (some "T1") = .ok (some aliceItem) :=
  c6_insert_get_roundtrip CustomerModel [] aliceItem "customer_id" "C0001"
    (some "T1") rfl rfl (by decide)
    (Or.inr ⟨"tenant_id", "T1", rfl, rfl, by decide, rfl⟩)

/-- Shape of `update` once the key resolved and the stored item was
fetched: merge, then save. -/
theorem update_of_resolved (m : PModel) (s : Store) (inst : Item)
    (hkn : String) (rkn : Option String) (cr : Bool) (hk rk : Option Value)
    (ex : Item)
    (hres : resolveKeys m inst hkn rkn = .ok (hk, rk))
    (hget : modelGet m s hk rk cr = .ok ex) :
    DynamoRepository.update m s inst hkn rkn cr =
      match save m s (DynamoRepository.mergeAttrs m ex inst) with
      | .error e => .error e
      | .ok s' => .ok (s', DynamoRepository.mergeAttrs m ex inst) := by
  unfold DynamoRepository.update
  rw [hres]
  cases rk with
  | none => simp [hget]
  | some r => simp [hget]

/-- After a successful probe, `update` cannot fail with `DoesNotExist`
(the remaining failure source, `save`, raises only `ValueError`s). -/
theorem update_ne_dne_of_probe_ok (m : PModel) (s : Store) (inst : Item)
    (hkn : String) (rkn : Option String) (hk rk : Option Value) (ex : Item)
    (hres : resolveKeys m inst hkn rkn = .ok (hk, rk))
    (hok : modelGet m s hk rk false = .ok ex) :
    DynamoRepository.update m s inst hkn rkn false ≠ .error .doesNotExist := by
  intro hcontra
  rw [update_of_resolved m s inst hkn rkn false hk rk ex hres hok] at hcontra
  cases hs : save m s (DynamoRepository.mergeAttrs m ex inst) with
  | ok s' => rw [hs] at hcontra; cases hcontra
  | error e =>
    rw [hs] at hcontra
    obtain ⟨msg, rfl⟩ := save_error_shape m s _ e hs
    cases hcontra

/-- Claim C2: when the probed key does not exist, `upsert` behaves
identically to `insert`; when it exists, identically to `update` with
the same arguments (`consistent_read` included — in the sequential
storage model the source's failure to forward it to `update` is
unobservable); and `upsert` never fails with `DoesNotExist` (the spec's
`ItemNotFoundError`). -/
theorem c2_upsert_totality (m : PModel) (s : Store) (inst : Item)
    (hkn : String) (rkn : Option String) (cr : Bool) :
    (∀ hk rk, resolveKeys m inst hkn rkn = .ok (hk, rk) →
       (modelGet m s hk rk cr = .error .doesNotExist →
          DynamoRepository.upsert m s inst hkn rkn cr =
            DynamoRepository.insert m s inst) ∧
       (∀ ex, modelGet m s hk rk cr = .ok ex →
          DynamoRepository.upsert m s inst hkn rkn cr =
            DynamoRepository.update m s inst hkn rkn cr)) ∧
    DynamoRepository.upsert m s inst hkn rkn cr ≠ .error .doesNotExist := by
  constructor
  · intro hk rk hres
    constructor
    · intro hdne
      unfold DynamoRepository.upsert
      rw [hres]
      cases rk with
      | none => simp [hdne]
      | some r => simp [hdne]
    · intro ex hok
      have hok0 : modelGet m s hk rk false = .ok ex := hok
      have hupd := update_of_resolved m s inst hkn rkn false hk rk ex hres hok0
      have hcr : DynamoRepository.update m s inst hkn rkn cr =
          DynamoRepository.update m s inst hkn rkn false := rfl
      rw [hcr]
      unfold DynamoRepository.upsert
      rw [hres]
      cases hs : save m s (DynamoRepository.mergeAttrs m ex inst) with
      | ok s' =>
        cases rk with
        | none => simp [hok, hupd, hs]
        | some r => simp [hok, hupd, hs]
      | error e =>
        obtain ⟨msg, rfl⟩ := save_error_shape m s _ e hs
        cases rk with
        | none => simp [hok, hupd, hs]
        | some r => simp [hok, hupd, hs]
  · intro hcontra
    unfold DynamoRepository.upsert at hcontra
    cases hres : resolveKeys m inst hkn rkn with
    | error e =>
      rw [hres] at hcontra
      have he : e = .attributeError :=
        resolveKeys_error_eq m inst hkn rkn e hres
      subst he
      cases hcontra
    | ok keys =>
      obtain ⟨hk, rk⟩ := keys
      rw [hres] at hcontra
      cases hpr : modelGet m s hk rk cr with
      | error e =>
        cases e with
        | doesNotExist =>
          have hins : DynamoRepository.insert m s inst =
              .error .doesNotExist := by
            cases rk with
            | none => simp [hpr] at hcontra; exact hcontra
            | some r => simp [hpr] at hcontra; exact hcontra
          exact insert_ne_doesNotExist m s inst hins
        | attributeError =>
          cases rk with
          | none => simp [hpr] at hcontra
          | some r => simp [hpr] at hcontra
        | valueError msg =>
          cases rk with
          | none => simp [hpr] at hcontra
          | some r => simp [hpr] at hcontra
      | ok ex =>
        have hok0 : modelGet m s hk rk false = .ok ex := hpr
        have hne := update_ne_dne_of_probe_ok m s inst hkn rkn hk rk ex
          hres hok0
        cases hu : DynamoRepository.update m s inst hkn rkn false with
        | ok p =>
          cases rk with
          | none => simp [hpr, hu] at hcontra
          | some r => simp [hpr, hu] at hcontra
        | error e =>
          cases e with
          | doesNotExist => exact hne hu
          | attributeError =>
            cases rk with
            | none => simp [hpr, hu] at hcontra
            | some r => simp [hpr, hu] at hcontra
          | valueError msg =>
            cases rk with
            | none => simp [hpr, hu] at hcontra
            | some r => simp [hpr, hu] at hcontra

/-- Witness for C2: both branches at a concrete customer — against the
empty table `upsert` inserts, against a table holding the key it
updates — plus the no-`DoesNotExist` guarantee. -/
theorem c2_upsert_totality_witness :
    DynamoRepository.upsert CustomerModel [] aliceItem "customer_id"
        (some "tenant_id") true =
      DynamoRepository.insert CustomerModel [] aliceItem ∧
    DynamoRepository.upsert CustomerModel [aliceItem] aliceRenamed
        "customer_id" (some "tenant_id") true =
      DynamoRepository.update CustomerModel [aliceItem] aliceRenamed
        "customer_id" (some "tenant_id") true ∧
    DynamoRepository.upsert CustomerModel [] aliceItem "customer_id"
        (some "tenant_id") true ≠ .error .doesNotExist :=
  ⟨((c2_upsert_totality CustomerModel [] aliceItem "customer_id"
      (some "tenant_id") true).1 (some "C0001") (some "T1") rfl).1 rfl,
   ((c2_upsert_totality CustomerModel [aliceItem] aliceRenamed "customer_id"
      (some "tenant_id") true).1 (some "C0001") (some "T1") rfl).2
      aliceItem rfl,
   (c2_upsert_totality CustomerModel [] aliceItem "customer_id"
      (some "tenant_id") true).2⟩

/-- A successful `get_item` means the key arity matched and the found
item sits at the requested key. -/
theorem storageGet_ok_facts (m : PModel) (s : Store) (h : Value)
    (rk : Option Value) (cr : Bool) (ex : Item)
    (hok : storageGet m s h rk cr = .ok ex) :
    m.rangeName.isSome = rk.isSome ∧ itemKeyMatches m h rk ex = true := by
  unfold storageGet at hok
  split at hok
  · cases hok
  · rename_i harity
    constructor
    · simpa [bne] using harity
    · cases hf : s.find? (itemKeyMatches m h rk) with
      | none => rw [hf] at hok; cases hok
      | some it =>
        rw [hf] at hok
        injection hok with hok
        exact hok ▸ List.find?_some hf

/-- Unpacking a key match: the model has a hash attribute, the item
holds the hash value there, and (when a range key is declared) the
range value. -/
theorem itemKeyMatches_facts (m : PModel) (h : Value) (rk : Option Value)
    (ex : Item) (hmatch : itemKeyMatches m h rk ex = true) :
    ∃ hn, m.hashName = some hn ∧ lookupI ex hn = some h ∧
      (∀ rn, m.rangeName = some rn → lookupI ex rn = rk) := by
  unfold itemKeyMatches at hmatch
  cases hhn : m.hashName with
  | none => rw [hhn] at hmatch; cases hmatch
  | some hn =>
    rw [hhn] at hmatch
    refine ⟨hn, rfl, ?_, ?_⟩
    · have h1 := (Bool.and_eq_true _ _).mp hmatch |>.1
      exact beq_iff_eq.mp h1
    · intro rn hrn
      rw [hrn] at hmatch
      have h2 := (Bool.and_eq_true _ _).mp hmatch |>.2
      exact beq_iff_eq.mp h2

/-- The model's hash-key name comes from a hash-marked declared
attribute. -/
theorem hashName_attr (m : PModel) (hn : String)
    (hhn : m.hashName = some hn) :
    ∃ a, a ∈ m.attributes ∧ a.is_hash_key = true ∧ a.pyName = hn := by
  unfold PModel.hashName at hhn
  cases hf : m.attributes.find? (fun a => a.is_hash_key) with
  | none => rw [hf] at hhn; cases hhn
  | some a =>
    rw [hf] at hhn
    injection hhn with hhn
    exact ⟨a, List.mem_of_find?_eq_some hf, List.find?_some hf, hhn⟩

/-- The model's range-key name comes from a range-marked declared
attribute. -/
theorem rangeName_attr (m : PModel) (rn : String)
    (hrn : m.rangeName = some rn) :
    ∃ a, a ∈ m.attributes ∧ a.is_range_key = true ∧ a.pyName = rn := by
  unfold PModel.rangeName at hrn
  cases hf : m.attributes.find? (fun a => a.is_range_key) with
  | none => rw [hf] at hrn; cases hrn
  | some a =>
    rw [hf] at hrn
    injection hrn with hrn
    exact ⟨a, List.mem_of_find?_eq_some hf, List.find?_some hf, hrn⟩

/-- The merge loop never touches a key-marked attribute. -/
theorem mergeAttrs_preserves_key_attr (m : PModel) (inst ex : Item)
    (hmwf : (m.attributes.map (fun a => a.pyName)).Nodup)
    (hiwf : (inst.map Prod.fst).Nodup)
    (a : AttrDef) (ha : a ∈ m.attributes)
    (hkey : (a.is_hash_key || a.is_range_key) = true) :
    lookupI (DynamoRepository.mergeAttrs m ex inst) a.pyName =
      lookupI ex a.pyName := by
  rw [mergeAttrs_lookup m inst hiwf ex a.pyName]
  cases hli : lookupI inst a.pyName with
  | none => rfl
  | some v =>
    have hks : (!a.is_hash_key && !a.is_range_key) = false := by
      cases hh : a.is_hash_key
      · rw [hh] at hkey
        simp at hkey
        simp [hkey]
      · simp [hh]
    simp [find?_pyName_self m.attributes hmwf a ha, hks]

/-- The merge loop copies every declared non-key attribute present on
the instance onto the fetched item. -/
theorem mergeAttrs_overwrites_nonkey (m : PModel) (inst ex : Item)
    (hmwf : (m.attributes.map (fun a => a.pyName)).Nodup)
    (hiwf : (inst.map Prod.fst).Nodup)
    (a : AttrDef) (ha : a ∈ m.attributes)
    (hkey : (!a.is_hash_key && !a.is_range_key) = true)
    (v : Value) (hv : lookupI inst a.pyName = some v) :
    lookupI (DynamoRepository.mergeAttrs m ex inst) a.pyName = some v := by
  rw [mergeAttrs_lookup m inst hiwf ex a.pyName, hv]
  simp [find?_pyName_self m.attributes hmwf a ha, hkey]

/-- Attributes absent on the instance are left as fetched. -/
theorem mergeAttrs_frame (m : PModel) (inst ex : Item)
    (hiwf : (inst.map Prod.fst).Nodup)
    (n : String) (hn0 : lookupI inst n = none) :
    lookupI (DynamoRepository.mergeAttrs m ex inst) n = lookupI ex n := by
  rw [mergeAttrs_lookup m inst hiwf ex n, hn0]

/-- Claim C3: when the key read off the instance resolves to a stored
item, `update` writes back exactly the fetched item merged with the
instance's declared non-key attributes: every such attribute present on
the instance overwrites the fetched value, the hash-key and range-key
attributes keep the fetched (stored) values — whatever key values the
caller's instance carries — and attributes absent from the instance are
untouched. -/
theorem c3_update_preserves_keys (m : PModel) (s : Store) (inst : Item)
    (hkn : String) (rkn : Option String) (cr : Bool)
    (hk rk : Option Value) (ex : Item)
    (hmwf : (m.attributes.map (fun a => a.pyName)).Nodup)
    (hiwf : (inst.map Prod.fst).Nodup)
    (hres : resolveKeys m inst hkn rkn = .ok (hk, rk))
    (hget : modelGet m s hk rk cr = .ok ex) :
    DynamoRepository.update m s inst hkn rkn cr =
      .ok (putItem m s (DynamoRepository.mergeAttrs m ex inst),
           DynamoRepository.mergeAttrs m ex inst) ∧
    (∀ a ∈ m.attributes, (a.is_hash_key || a.is_range_key) = true →
       lookupI (DynamoRepository.mergeAttrs m ex inst) a.pyName =
         lookupI ex a.pyName) ∧
    (∀ a ∈ m.attributes, (!a.is_hash_key && !a.is_range_key) = true →
       ∀ v, lookupI inst a.pyName = some v →
         lookupI (DynamoRepository.mergeAttrs m ex inst) a.pyName = some v) ∧
    (∀ n, lookupI inst n = none →
       lookupI (DynamoRepository.mergeAttrs m ex inst) n = lookupI ex n) := by
  have hk_some : ∃ h, hk = some h := by
    cases hk with
    | none => simp [modelGet] at hget
    | some h => exact ⟨h, rfl⟩
  obtain ⟨h, rfl⟩ := hk_some
  have hsg : storageGet m s h rk cr = .ok ex := hget
  obtain ⟨harity, hmatch⟩ := storageGet_ok_facts m s h rk cr ex hsg
  obtain ⟨hn, hhn, hexh, hexr⟩ := itemKeyMatches_facts m h rk ex hmatch
  obtain ⟨a0, ha0mem, ha0hash, ha0name⟩ := hashName_attr m hn hhn
  have hmh : lookupI (DynamoRepository.mergeAttrs m ex inst) hn = some h := by
    have hpres := mergeAttrs_preserves_key_attr m inst ex hmwf hiwf a0 ha0mem
      (by simp [ha0hash])
    rw [ha0name] at hpres
    rw [hpres, hexh]
  refine ⟨?_, ?_, ?_, ?_⟩
  · rw [update_of_resolved m s inst hkn rkn cr (some h) rk ex hres hget]
    cases hrn : m.rangeName with
    | none =>
      have hsave : save m s (DynamoRepository.mergeAttrs m ex inst) =
          .ok (putItem m s (DynamoRepository.mergeAttrs m ex inst)) := by
        unfold save
        simp [hhn, hmh, hrn]
      rw [hsave]
    | some rn =>
      have hrk : ∃ r, rk = some r := by
        have hrks : rk.isSome = true := by rw [← harity, hrn]; rfl
        cases rk with
        | none => cases hrks
        | some r => exact ⟨r, rfl⟩
      obtain ⟨r, rfl⟩ := hrk
      have hexr' : lookupI ex rn = some r := hexr rn hrn
      obtain ⟨a1, ha1mem, ha1range, ha1name⟩ := rangeName_attr m rn hrn
      have hmr : lookupI (DynamoRepository.mergeAttrs m ex inst) rn =
          some r := by
        have hpres := mergeAttrs_preserves_key_attr m inst ex hmwf hiwf a1
          ha1mem (by simp [ha1range])
        rw [ha1name] at hpres
        rw [hpres, hexr']
      have hsave : save m s (DynamoRepository.mergeAttrs m ex inst) =
          .ok (putItem m s (DynamoRepository.mergeAttrs m ex inst)) := by
        unfold save
        simp [hhn, hmh, hrn, hmr]
      rw [hsave]
  · intro a ha hkey
    exact mergeAttrs_preserves_key_attr m inst ex hmwf hiwf a ha hkey
  · intro a ha hkey v hv
    exact mergeAttrs_overwrites_nonkey m inst ex hmwf hiwf a ha hkey v hv
  · intro n hn0
    exact mergeAttrs_frame m inst ex hiwf n hn0

/-- Witness for C3: renaming a stored customer leaves its keys as
stored and applies the new name. -/
theorem c3_update_preserves_keys_witness :
    DynamoRepository.update CustomerModel [aliceItem] aliceRenamed
        "customer_id" (some "tenant_id") false =
      .ok (putItem CustomerModel [aliceItem]
             (DynamoRepository.mergeAttrs CustomerModel aliceItem aliceRenamed),
           DynamoRepository.mergeAttrs CustomerModel aliceItem aliceRenamed) ∧
    lookupI (DynamoRepository.mergeAttrs CustomerModel aliceItem aliceRenamed)
        "customer_id" = lookupI aliceItem "customer_id" ∧
    lookupI (DynamoRepository.mergeAttrs CustomerModel aliceItem aliceRenamed)
        "name" = some "Updated Name" :=
  ⟨(c3_update_preserves_keys CustomerModel [aliceItem] aliceRenamed
      "customer_id" (some "tenant_id") false (some "C0001") (some "T1")
      aliceItem (by decide) (by decide) rfl rfl).1,
   (c3_update_preserves_keys CustomerModel [aliceItem] aliceRenamed
      "customer_id" (some "tenant_id") false (some "C0001") (some "T1")
      aliceItem (by decide) (by decide) rfl rfl).2.1
      ⟨"customer_id", "customer_id", true, false⟩ (by decide) rfl,
   (c3_update_preserves_keys CustomerModel [aliceItem] aliceRenamed
      "customer_id" (some "tenant_id") false (some "C0001") (some "T1")
      aliceItem (by decide) (by decide) rfl rfl).2.2.1
      ⟨"name", "name", false, false⟩ (by decide) rfl "Updated Name" rfl⟩
